import Mathlib

/-!
Verification of the command bridge of the neovide front-end
(`src/bridge/mod.rs`, `src/window.rs`, `src/main.rs`), as a shallow
embedding in Lean 4.  Pure logic (batch coalescing, channel draining,
launcher policy, geometry parsing, startup handshake) is translated to
executable Lean functions; the concurrent shutdown protocol is modelled
as a small-step transition system over an explicit system state.
-/

namespace Neovide

/-- Modelled from the spec: the `Command` variants of `UiCommand`
(defined in `bridge/ui_commands.rs`, which is not part of the sources
given): resize(width,height), keyboard(text), mouse-button(action,
position), drag(position), scroll(direction, position), focus-gained,
focus-lost, file-drop(path), quit.  The variants and their payloads
match every construction site in `window.rs`. -/
inductive UiCommand where
  | resize (width height : Nat)
  | keyboard (input : String)
  | mouseButton (action : String) (position : Nat × Nat)
  | drag (x y : Nat)
  | scroll (direction : String) (position : Nat × Nat)
  | focusLost
  | focusGained
  | fileDrop (path : String)
  | quit
  deriving DecidableEq, Repr

/-- Modelled from the spec: the partition predicate
`UiCommand::is_resize` (in `bridge/ui_commands.rs`, not among the given
sources) selecting the resize commands of a batch; true exactly on the
resize variant. -/
def UiCommand.is_resize : UiCommand → Bool
  | .resize _ _ => true
  | _ => false

/-- The coalescing step of the UiCommand processor loop
(`bridge/mod.rs` lines 156-164): partition the drained batch into
resize commands and all other commands (Rust `partition` keeps relative
order in both halves), then emit `resize_list.into_iter().last()`
(`Option`, iterated as zero or one items) chained with the other
commands. -/
def coalesce (commands : List UiCommand) : List UiCommand :=
  let parts := commands.partition (fun command => command.is_resize)
  parts.1.getLast?.toList ++ parts.2

/-- The inner `while let Ok(ui_command) = receiver.try_recv()` loop of
`drain` (`bridge/mod.rs` lines 89-91): pops queued commands one at a
time, pushing each onto `results`, until the channel is momentarily
empty. -/
def try_recv_loop (results : List UiCommand) (queued : List UiCommand) : List UiCommand :=
  match queued with
  | [] => results
  | ui_command :: rest => try_recv_loop (results ++ [ui_command]) rest

/-- `drain` (`bridge/mod.rs` lines 86-96).  `queued` is the content of
the Command Channel at the moment `receiver.recv().await` resolves; the
empty list stands for the only situation in which `recv` resolves with
`None`, namely a closed and exhausted channel.  A first command is
received, then every already-queued command is taken non-blockingly. -/
def drain (queued : List UiCommand) : Option (List UiCommand) :=
  match queued with
  | [] => none
  | ui_command :: rest => some (try_recv_loop [ui_command] rest)

theorem try_recv_loop_eq (results queued : List UiCommand) :
    try_recv_loop results queued = results ++ queued := by
  induction queued generalizing results with
  | nil => simp [try_recv_loop]
  | cons c rest ih => simp [try_recv_loop, ih]

/-- C4: the drain operation returns the whole queue, in FIFO order,
whenever at least one command is available, and yields no batch exactly
when the channel is closed (and exhausted). -/
theorem drain_spec (queued : List UiCommand) :
    (drain queued = none ↔ queued = []) ∧
    (queued ≠ [] → drain queued = some queued) := by
  constructor
  · cases queued with
    | nil => simp [drain]
    | cons c rest => simp [drain]
  · intro h
    cases queued with
    | nil => exact absurd rfl h
    | cons c rest => simp [drain, try_recv_loop_eq]

/-- C4 witness: draining a channel holding two commands yields exactly
those two commands in FIFO order. -/
theorem drain_spec_witness :
    drain [UiCommand.keyboard "a", UiCommand.quit]
      = some [UiCommand.keyboard "a", UiCommand.quit] :=
  (drain_spec [UiCommand.keyboard "a", UiCommand.quit]).2 (by decide)

/-- C1: a batch holding at least one resize command dispatches exactly
the last resize enqueued followed by the non-resize commands in FIFO
order; a batch with no resize command is dispatched unchanged. -/
theorem coalesce_spec (commands : List UiCommand) :
    (∀ h : commands.filter (fun c => c.is_resize) ≠ [],
      coalesce commands
        = (commands.filter (fun c => c.is_resize)).getLast h
            :: commands.filter (fun c => !c.is_resize)) ∧
    (commands.filter (fun c => c.is_resize) = [] → coalesce commands = commands) := by
  constructor
  · intro h
    unfold coalesce
    rw [List.partition_eq_filter_filter]
    simp only []
    rw [List.getLast?_eq_getLast _ h]
    rfl
  · intro h
    unfold coalesce
    rw [List.partition_eq_filter_filter]
    simp only [h]
    have : ∀ c ∈ commands, ¬ (c.is_resize = true) := by
      rw [← List.filter_eq_nil_iff]
      exact h
    simp only [Option.toList_none, List.nil_append, List.getLast?_nil]
    rw [List.filter_eq_self.mpr]
    intro a ha
    simp [this a ha]

/-- C1 witness: the burst-resize scenario.  The batch
resize(10,10), resize(20,20), keyboard("a"), resize(30,30) dispatches
resize(30,30) then keyboard("a") — two commands, not four. -/
theorem coalesce_spec_witness :
    coalesce [UiCommand.resize 10 10, UiCommand.resize 20 20,
      UiCommand.keyboard "a", UiCommand.resize 30 30]
      = [UiCommand.resize 30 30, UiCommand.keyboard "a"] := by
  have h := (coalesce_spec [UiCommand.resize 10 10, UiCommand.resize 20 20,
    UiCommand.keyboard "a", UiCommand.resize 30 30]).1 (by decide)
  rw [h]
  decide

/-- `UnboundedSender::send`: appends to the unbounded channel; fails
(`SendError`, which `queue_command` unwraps into a panic) exactly when
the receiving half has been dropped.  `none` models the panic path. -/
def channel_send (receiverAlive : Bool) (chan : List UiCommand) (command : UiCommand) :
    Option (List UiCommand) :=
  if receiverAlive then some (chan ++ [command]) else none

/-- `Bridge::queue_command` (`bridge/mod.rs` lines 207-215): return
immediately when the Running Flag reads false, otherwise send on the
Command Channel, panicking on a send error. -/
def queue_command (running receiverAlive : Bool) (chan : List UiCommand)
    (command : UiCommand) : Option (List UiCommand) :=
  if !running then some chan
  else channel_send receiverAlive chan command

/-- The bridge-wide state visible to the interleaving model: the Running
Flag, whether the consuming half of the Command Channel is still alive,
the channel contents, the coalesced commands whose dispatch tasks are
spawned but have not yet run their entry check, the commands past that
check (in-flight against the session), and the commands executed. -/
structure SysState where
  running : Bool
  receiverAlive : Bool
  chan : List UiCommand
  spawned : List UiCommand
  inFlight : List UiCommand
  executed : List UiCommand
  deriving DecidableEq, Repr

/-- `Bridge::new` (`bridge/mod.rs` lines 192-205): fresh channel, the
receiver handed to the consumer task, `running` initialized true. -/
def initState : SysState :=
  { running := true, receiverAlive := true, chan := [], spawned := [],
    inFlight := [], executed := [] }

/-- One interleaved step of the bridge.  The constructors mirror the
code paths of `bridge/mod.rs`: `queue` is one completed
`Bridge::queue_command` call — its flag check (line 208) and send
(line 212) are abstracted into a single atomic step, so a producer
suspended between the two, and the receiver drops caused by the
`start_process` panic paths (lines 103, 131, 145), are outside this
relation (the panic itself is treated at the `queue_command` function
level, where the dropped-receiver states are examined directly);
`flip` is the close watcher storing false (line 116); `drainBatch` /
`drainStop` are one iteration of the UiCommand processor loop (lines
152-175), which drains the channel and then either spawns the coalesced
batch (flag true) or returns, dropping the receiver (flag false);
`taskPass` / `taskDrop` are a spawned dispatch task reaching its entry
check (lines 168-170); `taskFinish` is an in-flight
`command.execute(...)` completing, which no flag guards. -/
inductive Step : SysState → SysState → Prop where
  | queue (s : SysState) (c : UiCommand) (chan2 : List UiCommand) :
      queue_command s.running s.receiverAlive s.chan c = some chan2 →
      Step s { s with chan := chan2 }
  | flip (s : SysState) :
      Step s { s with running := false }
  | drainBatch (s : SysState) (batch : List UiCommand) :
      drain s.chan = some batch → s.running = true →
      Step s { s with chan := [], spawned := s.spawned ++ coalesce batch }
  | drainStop (s : SysState) (batch : List UiCommand) :
      drain s.chan = some batch → s.running = false →
      Step s { s with chan := [], receiverAlive := false }
  | taskPass (s : SysState) (l1 l2 : List UiCommand) (c : UiCommand) :
      s.spawned = l1 ++ c :: l2 → s.running = true →
      Step s { s with spawned := l1 ++ l2, inFlight := s.inFlight ++ [c] }
  | taskDrop (s : SysState) (l1 l2 : List UiCommand) (c : UiCommand) :
      s.spawned = l1 ++ c :: l2 → s.running = false →
      Step s { s with spawned := l1 ++ l2 }
  | taskFinish (s : SysState) (l1 l2 : List UiCommand) (c : UiCommand) :
      s.inFlight = l1 ++ c :: l2 →
      Step s { s with inFlight := l1 ++ l2, executed := s.executed ++ [c] }

/-- Finitely many interleaved steps. -/
def Steps : SysState → SysState → Prop :=
  Relation.ReflTransGen Step

theorem step_running_mono (s s2 : SysState) (h : Step s s2) :
    s2.running = true → s.running = true := by
  cases h <;> simp_all

theorem steps_running_false (s s2 : SysState) (h : Steps s s2)
    (hr : s.running = false) : s2.running = false := by
  induction h with
  | refl => exact hr
  | tail hsteps hstep ih =>
      rename_i b c
      by_contra hc
      have := step_running_mono b c hstep (by simpa using hc)
      rw [ih] at this
      exact Bool.false_ne_true this

/-- C2 counterexample: with the Running Flag still reading true but the
receiving half of the Command Channel already dropped, the send fails
and its `unwrap_or_explained_panic` (`bridge/mod.rs` line 212) fires —
the call does not return; `none` is the panic path of the embedding.
That state is reachable in the program: `start_process` panics at lines
103, 131 or 145 before the processor task takes the receiver (a panic
in a spawned task does not kill the process, and no watcher flips the
flag), and in steady state the consumer can observe the flipped flag
and return, dropping the receiver, between a producer's flag check
(line 208) and its send (line 212). -/
theorem queue_command_panic_counterexample :
    queue_command true false [] UiCommand.quit = none := rfl

/-- C2 as amended: `queue_command` never blocks; when the Running Flag
reads false it is a silent no-op regardless of the receiver — the
command is dropped and the Command Channel is unchanged, so no dispatch
task is ever spawned for it; when the flag reads true and the consuming
half of the Command Channel is alive the command is enqueued in FIFO
position; but when the flag reads true and the receiver has been
dropped, the send's unwrap panics, so the call is not total. -/
theorem queue_command_behavior (chan : List UiCommand) (c : UiCommand) :
    (queue_command false true chan c = some chan) ∧
    (queue_command false false chan c = some chan) ∧
    (queue_command true true chan c = some (chan ++ [c])) ∧
    (queue_command true false chan c = none) :=
  ⟨rfl, rfl, rfl, rfl⟩

theorem step_flag_false_mem (s s2 : SysState) (c : UiCommand)
    (hstep : Step s s2) (hr : s.running = false) :
    (c ∈ s2.executed → c ∈ s.executed ∨ c ∈ s.inFlight) ∧
    (c ∈ s2.inFlight → c ∈ s.inFlight) ∧
    (c ∈ s2.chan → c ∈ s.chan) ∧
    (c ∈ s2.spawned → c ∈ s.spawned) := by
  cases hstep with
  | queue c2 chan2 hq =>
      simp only [queue_command, hr, Bool.not_false, if_true, Option.some.injEq] at hq
      subst hq
      exact ⟨fun h => Or.inl h, fun h => h, fun h => h, fun h => h⟩
  | flip => exact ⟨fun h => Or.inl h, fun h => h, fun h => h, fun h => h⟩
  | drainBatch batch hd hrun => rw [hr] at hrun; exact absurd hrun (by simp)
  | drainStop batch hd hrun =>
      exact ⟨fun h => Or.inl h, fun h => h,
        fun h => (List.not_mem_nil c h).elim, fun h => h⟩
  | taskPass l1 l2 c2 hsp hrun => rw [hr] at hrun; exact absurd hrun (by simp)
  | taskDrop l1 l2 c2 hsp hrun =>
      refine ⟨fun h => Or.inl h, fun h => h, fun h => h, fun h => ?_⟩
      have h2 : c ∈ l1 ++ l2 := h
      rw [hsp]
      rcases List.mem_append.mp h2 with ha | hb
      · exact List.mem_append.mpr (Or.inl ha)
      · exact List.mem_append.mpr (Or.inr (List.mem_cons_of_mem _ hb))
  | taskFinish l1 l2 c2 hin =>
      refine ⟨fun h => ?_, fun h => ?_, fun h => h, fun h => h⟩
      · have h2 : c ∈ s.executed ++ [c2] := h
        rcases List.mem_append.mp h2 with ha | hb
        · exact Or.inl ha
        · have hc : c = c2 := by simpa using hb
          subst hc
          exact Or.inr (by rw [hin]; exact List.mem_append.mpr (Or.inr (List.mem_cons_self _ _)))
      · have h2 : c ∈ l1 ++ l2 := h
        rw [hin]
        rcases List.mem_append.mp h2 with ha | hb
        · exact List.mem_append.mpr (Or.inl ha)
        · exact List.mem_append.mpr (Or.inr (List.mem_cons_of_mem _ hb))

/-- C3: once the Running Flag reads false, no command is newly sent to
the engine: along any further interleaving, the executed set grows only
by commands that were already in flight (in-flight tasks are not
cancelled), no command newly enters flight, and neither the channel nor
the spawned set acquires new commands — every checkpoint (enqueue,
batch-consumption entry, per-command dispatch entry) that reads false
drops its work. -/
theorem flag_false_never_sends (s s2 : SysState) (c : UiCommand)
    (hsteps : Steps s s2) (hr : s.running = false) :
    (c ∈ s2.executed → c ∈ s.executed ∨ c ∈ s.inFlight) ∧
    (c ∈ s2.inFlight → c ∈ s.inFlight) ∧
    (c ∈ s2.chan → c ∈ s.chan) ∧
    (c ∈ s2.spawned → c ∈ s.spawned) := by
  induction hsteps with
  | refl => exact ⟨fun h => Or.inl h, fun h => h, fun h => h, fun h => h⟩
  | tail hsteps hstep ih =>
      rename_i b b2
      have hb : b.running = false := steps_running_false s b hsteps hr
      have hone := step_flag_false_mem b b2 c hstep hb
      refine ⟨fun h => ?_, fun h => ih.2.1 (hone.2.1 h),
        fun h => ih.2.2.1 (hone.2.2.1 h), fun h => ih.2.2.2 (hone.2.2.2 h)⟩
      rcases hone.1 h with h1 | h2
      · exact ih.1 h1
      · exact Or.inr (ih.2.1 h2)

/-- A shut-down state used to instantiate the shutdown theorems: flag
already false, one command still queued, one command in flight. -/
def shutState : SysState :=
  { running := false, receiverAlive := true, chan := [UiCommand.quit],
    spawned := [], inFlight := [UiCommand.keyboard "a"], executed := [] }

/-- C3 witness: from `shutState`, one consumer-loop iteration (which
observes the false flag and stops) sends nothing: the sole in-flight
command stays the only candidate for execution and the queued `quit` is
dropped. -/
theorem flag_false_never_sends_witness :
    (UiCommand.keyboard "a" ∈
        ({ shutState with chan := [], receiverAlive := false } : SysState).executed →
      UiCommand.keyboard "a" ∈ shutState.executed ∨
        UiCommand.keyboard "a" ∈ shutState.inFlight) ∧
    (UiCommand.keyboard "a" ∈
        ({ shutState with chan := [], receiverAlive := false } : SysState).inFlight →
      UiCommand.keyboard "a" ∈ shutState.inFlight) ∧
    (UiCommand.keyboard "a" ∈
        ({ shutState with chan := [], receiverAlive := false } : SysState).chan →
      UiCommand.keyboard "a" ∈ shutState.chan) ∧
    (UiCommand.keyboard "a" ∈
        ({ shutState with chan := [], receiverAlive := false } : SysState).spawned →
      UiCommand.keyboard "a" ∈ shutState.spawned) :=
  flag_false_never_sends shutState
    { shutState with chan := [], receiverAlive := false }
    (UiCommand.keyboard "a")
    (Relation.ReflTransGen.single
      (Step.drainStop shutState [UiCommand.quit] rfl rfl))
    rfl

/-- Log severities of the `log` crate calls made by the bridge. -/
inductive Severity where
  | error
  | info
  | trace
  deriving DecidableEq, Repr

/-- The value `io_handler.await` resolves to in the close watcher
(`bridge/mod.rs` lines 107-114): the join itself failing, the I/O loop
returning an error (tagged with `is_channel_closed()`), or a clean
return. -/
inductive IoLoopResult where
  | joinError
  | ioError (channelClosed : Bool)
  | clean
  deriving DecidableEq, Repr

/-- Observable effect of one background task: log records emitted, the
value stored into the Running Flag (if any store happens it is recorded
here), and a process exit if one is requested. -/
structure WatcherEffect where
  logs : List Severity
  storedRunning : Bool
  exitCode : Option Nat
  deriving DecidableEq, Repr

/-- The close watcher task (`bridge/mod.rs` lines 105-117): log the
start at info severity, log an error for a join failure or for an I/O
error that is not `is_channel_closed`, and in every case store false
into the Running Flag; it never exits the process. -/
def close_watcher (result : IoLoopResult) : WatcherEffect :=
  let branchLogs : List Severity :=
    match result with
    | .joinError => [Severity.error]
    | .ioError channelClosed => if channelClosed then [] else [Severity.error]
    | .clean => []
  { logs := [Severity.info] ++ branchLogs, storedRunning := false, exitCode := none }

/-- C5: whatever way the I/O loop of the RPC session returns, the close
watcher stores false into the Running Flag and never aborts the
front-end; an error record is logged exactly for a join failure or an
I/O error other than channel-already-closed, so the channel-closed
termination leaves only the low-severity start record. -/
theorem close_watcher_spec (result : IoLoopResult) :
    (close_watcher result).storedRunning = false ∧
    (close_watcher result).exitCode = none ∧
    (Severity.error ∈ (close_watcher result).logs ↔
      result = IoLoopResult.joinError ∨ result = IoLoopResult.ioError false) ∧
    (close_watcher (IoLoopResult.ioError true)).logs = [Severity.info] := by
  cases result with
  | joinError => exact ⟨rfl, rfl, by decide, rfl⟩
  | ioError channelClosed => cases channelClosed <;> exact ⟨rfl, rfl, by decide, rfl⟩
  | clean => exact ⟨rfl, rfl, by decide, rfl⟩

/-- Actions `start_process` performs against the engine or against the
process itself after the RPC session is open (`bridge/mod.rs` lines
119-146), in program order.  `storeRunning` is a store into the Running
Flag, included so its absence from a path can be stated; on the startup
path the code contains no such store (the only store lives in the close
watcher). -/
inductive StartupAction where
  | logError (msg : String)
  | exitProcess (code : Nat)
  | setVar (name : String)
  | runHook
  | echoHookError
  | uiAttach (width height : Nat)
  | storeRunning (value : Bool)
  deriving DecidableEq, Repr

/-- The value the capability check
`nvim.eval("has(\"nvim-0.4\")").await` resolves to: an integer, some
other value, or an RPC error. -/
inductive EvalResult where
  | integer (v : Int)
  | otherValue
  | evalError
  deriving DecidableEq, Repr

/-- The test of `bridge/mod.rs` lines 119-120: the check passes exactly
when the eval returned the integer 1. -/
def version_check_passes (ver : EvalResult) : Bool :=
  match ver with
  | .integer v => v == 1
  | .otherValue => false
  | .evalError => false

/-- `start_process` after the session is open (`bridge/mod.rs` lines
119-146): version check (exit 0 on failure), set the `neovide` marker
variable, run `runtime! ginit.vim` and echo its error back into the
engine if it failed, then attach the UI with the initial dimensions.
`exitProcess` truncates the trace, as `std::process::exit` never
returns. -/
def startup_actions (width height : Nat) (ver : EvalResult) (hookFails : Bool) :
    List StartupAction :=
  match ver with
  | .integer v =>
      if v = 1 then
        [StartupAction.setVar "neovide", StartupAction.runHook] ++
          (if hookFails then [StartupAction.echoHookError] else []) ++
          [StartupAction.uiAttach width height]
      else
        [StartupAction.logError "Neovide requires version 0.4 or higher",
          StartupAction.exitProcess 0]
  | _ =>
      [StartupAction.logError "Neovide requires version 0.4 or higher",
        StartupAction.exitProcess 0]

/-- C6 counterexample: on a failing version check the startup path logs
the diagnostic and exits the whole process with status 0 — it contains
no store of false (nor of any value) into the Running Flag, so the flag
is not "set false when the version check fails"; the sole store of
false lives in the close watcher and fires on I/O-loop termination. -/
theorem version_failure_no_flag_store :
    startup_actions 100 50 EvalResult.evalError false
      = [StartupAction.logError "Neovide requires version 0.4 or higher",
          StartupAction.exitProcess 0] ∧
    StartupAction.storeRunning false ∉ startup_actions 100 50 EvalResult.evalError false ∧
    StartupAction.storeRunning true ∉ startup_actions 100 50 EvalResult.evalError false := by
  refine ⟨rfl, ?_, ?_⟩ <;> decide

/-- C6 as amended: the Running Flag starts true at bridge construction
and is set false at most once, by the close watcher when the subprocess
I/O loop terminates (the watcher always stores false); a failing
version check exits the process without storing into the flag; no step
of the system ever turns the flag back on, so once false it stays false
along any interleaving. -/
theorem running_flag_lifecycle :
    initState.running = true ∧
    (∀ s s2 : SysState, Step s s2 → s2.running = true → s.running = true) ∧
    (∀ s s2 : SysState, Steps s s2 → s.running = false → s2.running = false) ∧
    (∀ result : IoLoopResult, (close_watcher result).storedRunning = false) ∧
    (∀ (width height : Nat) (ver : EvalResult) (hookFails : Bool) (v : Bool),
      StartupAction.storeRunning v ∉ startup_actions width height ver hookFails) := by
  refine ⟨rfl, step_running_mono, steps_running_false, fun result => rfl, ?_⟩
  intro width height ver hookFails v
  cases ver with
  | integer w =>
      by_cases hw : w = 1
      · cases hookFails <;> simp [startup_actions, hw]
      · simp [startup_actions, hw]
  | otherValue => simp [startup_actions]
  | evalError => simp [startup_actions]

/-- C6 witness: the fresh bridge state has the flag true; a state whose
flag has been dropped keeps it false across (zero) further steps. -/
theorem running_flag_lifecycle_witness :
    initState.running = true ∧
    ({ initState with running := false } : SysState).running = false :=
  ⟨running_flag_lifecycle.1,
    running_flag_lifecycle.2.2.1 { initState with running := false }
      { initState with running := false } Relation.ReflTransGen.refl rfl⟩

/-- C7: a failing (or erroring) capability check logs the
higher-version diagnostic and exits with status 0; no UI attachment is
requested and the session marker variable is never set. -/
theorem version_rejection_spec (width height : Nat) (ver : EvalResult)
    (hookFails : Bool) (h : version_check_passes ver = false) :
    startup_actions width height ver hookFails
      = [StartupAction.logError "Neovide requires version 0.4 or higher",
          StartupAction.exitProcess 0] ∧
    (∀ w2 h2 : Nat,
      StartupAction.uiAttach w2 h2 ∉ startup_actions width height ver hookFails) ∧
    (∀ name : String,
      StartupAction.setVar name ∉ startup_actions width height ver hookFails) := by
  have he : startup_actions width height ver hookFails
      = [StartupAction.logError "Neovide requires version 0.4 or higher",
          StartupAction.exitProcess 0] := by
    cases ver with
    | integer v =>
        have hv : ¬ v = 1 := by simpa [version_check_passes] using h
        simp [startup_actions, hv]
    | otherValue => simp [startup_actions]
    | evalError => simp [startup_actions]
  refine ⟨he, ?_, ?_⟩
  · intro w2 h2
    rw [he]
    simp
  · intro name
    rw [he]
    simp

/-- C7 witness: an erroring capability check at the default geometry
produces exactly the diagnostic and the status-0 exit. -/
theorem version_rejection_spec_witness :
    startup_actions 100 50 EvalResult.evalError false
      = [StartupAction.logError "Neovide requires version 0.4 or higher",
          StartupAction.exitProcess 0] :=
  (version_rejection_spec 100 50 EvalResult.evalError false (by decide)).1

/-- C8: when the version check passes and the user customization hook
errors, the error is echoed back into the engine as a displayed message
and startup still proceeds to UI attachment; the front-end does not
abort. -/
theorem hook_error_recovery_spec (width height : Nat) (ver : EvalResult)
    (h : version_check_passes ver = true) :
    startup_actions width height ver true
      = [StartupAction.setVar "neovide", StartupAction.runHook,
          StartupAction.echoHookError, StartupAction.uiAttach width height] ∧
    (∀ code : Nat,
      StartupAction.exitProcess code ∉ startup_actions width height ver true) := by
  have hv : ver = EvalResult.integer 1 := by
    cases ver with
    | integer v =>
        have : v = 1 := by simpa [version_check_passes] using h
        rw [this]
    | otherValue => simp [version_check_passes] at h
    | evalError => simp [version_check_passes] at h
  subst hv
  refine ⟨by simp [startup_actions], ?_⟩
  intro code
  simp [startup_actions]

/-- C8 witness: with a passing check and a failing hook at the default
geometry, the echo is issued and the UI attach follows. -/
theorem hook_error_recovery_spec_witness :
    startup_actions 100 50 (EvalResult.integer 1) true
      = [StartupAction.setVar "neovide", StartupAction.runHook,
          StartupAction.echoHookError, StartupAction.uiAttach 100 50] :=
  (hook_error_recovery_spec 100 50 (EvalResult.integer 1) (by decide)).1

/-- A process invocation built by the launcher: the program launched
and its leading arguments. -/
structure LaunchCmd where
  program : String
  args : List String
  deriving DecidableEq, Repr

/-- The three compile-time platform variants of
`platform_build_nvim_cmd`. -/
inductive Platform where
  | windows
  | macos
  | other
  deriving DecidableEq, Repr

/-- `platform_build_nvim_cmd` (`bridge/mod.rs` lines 34-63): on
windows, a `--wsl` flag among the process arguments launches the binary
through the `wsl` wrapper; on macos, a configured path that does not
exist falls back to `/usr/local/bin/nvim`; elsewhere the binary is
launched directly.  `processArgs` stands for `std::env::args()` and
`pathExists` for `Path::exists`. -/
def platform_build_nvim_cmd (platform : Platform) (processArgs : List String)
    (pathExists : String → Bool) (bin : String) : LaunchCmd :=
  match platform with
  | .windows =>
      if processArgs.contains "--wsl" then { program := "wsl", args := [bin] }
      else { program := bin, args := [] }
  | .macos =>
      if pathExists bin then { program := bin, args := [] }
      else { program := "/usr/local/bin/nvim", args := [] }
  | .other => { program := bin, args := [] }

/-- `build_nvim_cmd` (`bridge/mod.rs` lines 65-71): the `NEOVIM_BIN`
environment override names the engine binary when set, defaulting to
`"nvim"`. -/
def build_nvim_cmd (platform : Platform) (processArgs : List String)
    (pathExists : String → Bool) (envOverride : Option String) : LaunchCmd :=
  match envOverride with
  | some path => platform_build_nvim_cmd platform processArgs pathExists path
  | none => platform_build_nvim_cmd platform processArgs pathExists "nvim"

/-- C9: the launcher takes the binary name from the environment
override, defaulting to `nvim`, and applies the platform policy as
data: windows wraps in `wsl` exactly when the flag is present, macos
falls back to `/usr/local/bin/nvim` exactly when the configured path
does not exist, and every other platform launches the binary
directly. -/
theorem build_nvim_cmd_spec (platform : Platform) (processArgs : List String)
    (pathExists : String → Bool) (envOverride : Option String) (bin : String) :
    (build_nvim_cmd platform processArgs pathExists envOverride
      = platform_build_nvim_cmd platform processArgs pathExists
          (envOverride.getD "nvim")) ∧
    (processArgs.contains "--wsl" = true →
      platform_build_nvim_cmd Platform.windows processArgs pathExists bin
        = { program := "wsl", args := [bin] }) ∧
    (processArgs.contains "--wsl" = false →
      platform_build_nvim_cmd Platform.windows processArgs pathExists bin
        = { program := bin, args := [] }) ∧
    (pathExists bin = false →
      platform_build_nvim_cmd Platform.macos processArgs pathExists bin
        = { program := "/usr/local/bin/nvim", args := [] }) ∧
    (pathExists bin = true →
      platform_build_nvim_cmd Platform.macos processArgs pathExists bin
        = { program := bin, args := [] }) ∧
    (platform_build_nvim_cmd Platform.other processArgs pathExists bin
      = { program := bin, args := [] }) := by
  refine ⟨?_, ?_, ?_, ?_, ?_, rfl⟩
  · cases envOverride <;> rfl
  · intro h
    simp only [platform_build_nvim_cmd, h, if_true]
  · intro h
    simp only [platform_build_nvim_cmd, h, Bool.false_eq_true, if_false]
  · intro h
    simp only [platform_build_nvim_cmd, h, Bool.false_eq_true, if_false]
  · intro h
    simp only [platform_build_nvim_cmd, h, if_true]

/-- C9 witness: with `--wsl` among the process arguments, the windows
variant launches through the `wsl` wrapper with the binary as its
argument. -/
theorem build_nvim_cmd_spec_witness :
    platform_build_nvim_cmd Platform.windows ["neovide", "--wsl"]
        (fun _ => false) "nvim"
      = { program := "wsl", args := ["nvim"] } :=
  (build_nvim_cmd_spec Platform.windows ["neovide", "--wsl"] (fun _ => false)
    none "nvim").2.1 (by decide)


/-- `INITIAL_DIMENSIONS` (`main.rs` line 28). -/
def INITIAL_DIMENSIONS : Nat × Nat := (100, 50)

/-- Rust `str::starts_with` over the character sequence. -/
def starts_with (s pat : List Char) : Bool :=
  match s, pat with
  | _, [] => true
  | [], _ :: _ => false
  | c :: cs, p :: ps => c == p && starts_with cs ps

/-- Rust `str::split(sep)` over the character sequence: the empty
string yields one empty field, a trailing separator yields a trailing
empty field. -/
def split_on_char (sep : Char) (s : List Char) : List (List Char) :=
  match s with
  | [] => [[]]
  | c :: rest =>
      let r := split_on_char sep rest
      if c == sep then [] :: r
      else
        match r with
        | [] => [[c]]
        | g :: gs => (c :: g) :: gs

/-- Rust `str::parse::<u64>` on a decimal string: an optional leading
`+`, then at least one ascii digit and nothing else, with the value in
u64 range. -/
def parse_u64 (s : List Char) : Option Nat :=
  let t := match s with
    | '+' :: rest => rest
    | _ => s
  if t.isEmpty then none
  else if t.all (fun ch => ch.isDigit) then
    let v := t.foldl (fun acc ch => acc * 10 + (ch.toNat - 48)) 0
    if v < 2 ^ 64 then some v else none
  else none

/-- The message bound to `invalid_parse_err` in `window_geometry`
(`window.rs` lines 57-60). -/
def invalid_parse_err (input : List Char) : List Char :=
  "Invalid geometry: ".toList ++ input ++ "\nValid format: <width>x<height>".toList

/-- The per-dimension closure of `window_geometry` (`window.rs` lines
64-75): parse as u64, replacing a parse failure by the captured
invalid-geometry message, then require the dimension to be positive. -/
def parse_dimension (invalidParseErr : List Char) (dimension : List Char) :
    Except (List Char) Nat :=
  match parse_u64 dimension with
  | none => Except.error invalidParseErr
  | some v =>
      if v > 0 then Except.ok v
      else Except.error "Invalid geometry: Window dimensions should be greater than 0.".toList

/-- Rust `collect::<Result<Vec<_>, _>>` over the mapped dimension
fields: stops at the first error, keeps order. -/
def collect_results (f : List Char → Except (List Char) Nat) :
    List (List Char) → Except (List Char) (List Nat)
  | [] => Except.ok []
  | d :: rest =>
      match f d with
      | Except.error msg => Except.error msg
      | Except.ok v =>
          match collect_results f rest with
          | Except.error msg => Except.error msg
          | Except.ok vs => Except.ok (v :: vs)

/-- The geometry-argument body of `window_geometry` (`window.rs` lines
56-84): split the text after `--geometry=` on `x`, parse every field as
a positive u64, and require exactly two fields. -/
def parse_geometry (input : List Char) : Except (List Char) (Nat × Nat) :=
  match collect_results (parse_dimension (invalid_parse_err input))
      (split_on_char 'x' input) with
  | Except.error msg => Except.error msg
  | Except.ok dimensions =>
      match dimensions with
      | [width, height] => Except.ok (width, height)
      | _ => Except.error (invalid_parse_err input)

/-- The `--geometry=` argument marker of `window_geometry`
(`window.rs` line 50). -/
def geometry_flag : List Char := "--geometry=".toList

/-- `window_geometry` (`window.rs` lines 49-86): the first process
argument starting with `--geometry=` is parsed after stripping the
marker; with no such argument the initial dimensions are returned. -/
def window_geometry (args : List (List Char)) : Except (List Char) (Nat × Nat) :=
  match args.find? (fun arg => starts_with arg geometry_flag) with
  | none => Except.ok INITIAL_DIMENSIONS
  | some arg => parse_geometry (arg.drop geometry_flag.length)

/-- `window_geometry_or_default` (`window.rs` lines 88-90). -/
def window_geometry_or_default (args : List (List Char)) : Nat × Nat :=
  match window_geometry args with
  | Except.ok geometry => geometry
  | Except.error _ => INITIAL_DIMENSIONS

theorem parse_dimension_ok (invalidParseErr dimension : List Char) (v : Nat) :
    parse_dimension invalidParseErr dimension = Except.ok v ↔
      parse_u64 dimension = some v ∧ 0 < v := by
  unfold parse_dimension
  cases hp : parse_u64 dimension with
  | none => simp
  | some u =>
      by_cases hu : u > 0
      · simp only [hu, if_true]
        constructor
        · intro h
          cases h
          exact ⟨rfl, hu⟩
        · rintro ⟨h1, h2⟩
          cases h1
          rfl
      · simp only [hu, if_false]
        constructor
        · intro h
          exact absurd h (by simp)
        · rintro ⟨h1, h2⟩
          cases h1
          exact absurd h2 hu

theorem collect_results_forall (f : List Char → Except (List Char) Nat) :
    ∀ (l : List (List Char)) (vs : List Nat), collect_results f l = Except.ok vs →
      List.Forall₂ (fun d v => f d = Except.ok v) l vs := by
  intro l
  induction l with
  | nil =>
      intro vs h
      cases h
      exact List.Forall₂.nil
  | cons d rest ih =>
      intro vs h
      unfold collect_results at h
      cases hfd : f d with
      | error msg => rw [hfd] at h; exact absurd h (by simp)
      | ok v =>
          rw [hfd] at h
          cases hrest : collect_results f rest with
          | error msg => rw [hrest] at h; exact absurd h (by simp)
          | ok ws =>
              rw [hrest] at h
              cases h
              exact List.Forall₂.cons hfd (ih ws hrest)

theorem collect_results_two (f : List Char → Except (List Char) Nat)
    (a b : List Char) (w h : Nat) (h1 : f a = Except.ok w) (h2 : f b = Except.ok h) :
    collect_results f [a, b] = Except.ok [w, h] := by
  unfold collect_results
  rw [h1]
  unfold collect_results
  rw [h2]
  rfl

/-- C10: geometry parsing is total and validating: with no
`--geometry=` argument the default (100, 50) is returned; the first
`--geometry=` argument is stripped of the marker and parsed; a payload
splitting on `x` into exactly two positive u64 fields parses to those
dimensions; every successful parse has exactly that shape (so a
non-numeric field, a zero field, or a field count other than two yields
an error); and on any error `window_geometry_or_default` falls back to
(100, 50). -/
theorem window_geometry_spec :
    (∀ args : List (List Char),
      (∀ a ∈ args, starts_with a geometry_flag = false) →
      window_geometry args = Except.ok (100, 50)) ∧
    (∀ args arg, args.find? (fun a => starts_with a geometry_flag) = some arg →
      window_geometry args = parse_geometry (arg.drop geometry_flag.length)) ∧
    (∀ input a b w h, split_on_char 'x' input = [a, b] →
      parse_u64 a = some w → 0 < w → parse_u64 b = some h → 0 < h →
      parse_geometry input = Except.ok (w, h)) ∧
    (∀ input w h, parse_geometry input = Except.ok (w, h) →
      0 < w ∧ 0 < h ∧ ∃ a b, split_on_char 'x' input = [a, b] ∧
        parse_u64 a = some w ∧ parse_u64 b = some h) ∧
    (∀ args msg, window_geometry args = Except.error msg →
      window_geometry_or_default args = (100, 50)) := by
  refine ⟨?_, ?_, ?_, ?_, ?_⟩
  · intro args h
    have hf : args.find? (fun arg => starts_with arg geometry_flag) = none := by
      rw [List.find?_eq_none]
      intro a ha
      simp [h a ha]
    unfold window_geometry
    rw [hf]
    rfl
  · intro args arg h
    unfold window_geometry
    rw [h]
  · intro input a b w h hsplit hpa hw hpb hh
    unfold parse_geometry
    rw [hsplit]
    rw [collect_results_two _ a b w h
      ((parse_dimension_ok _ a w).mpr ⟨hpa, hw⟩)
      ((parse_dimension_ok _ b h).mpr ⟨hpb, hh⟩)]
  · intro input w h hok
    unfold parse_geometry at hok
    cases hm : collect_results (parse_dimension (invalid_parse_err input))
        (split_on_char 'x' input) with
    | error msg => rw [hm] at hok; exact absurd hok (by simp)
    | ok dimensions =>
        rw [hm] at hok
        have hfa := collect_results_forall _ _ _ hm
        match dimensions, hfa with
        | [], _ => exact absurd hok (by simp)
        | [d], _ => exact absurd hok (by simp)
        | [d1, d2], hfa =>
            simp only [Except.ok.injEq, Prod.mk.injEq] at hok
            obtain ⟨hw, hh⟩ := hok
            subst hw
            subst hh
            rw [List.forall₂_cons_right_iff] at hfa
            obtain ⟨a1, l1, hfa1, hfa2, hinput⟩ := hfa
            rw [List.forall₂_cons_right_iff] at hfa2
            obtain ⟨a2, l2, hfa3, hfa4, hl1⟩ := hfa2
            rw [List.forall₂_nil_right_iff] at hfa4
            subst hfa4
            subst hl1
            have h1 := (parse_dimension_ok _ a1 d1).mp hfa1
            have h2 := (parse_dimension_ok _ a2 d2).mp hfa3
            exact ⟨h1.2, h2.2, a1, a2, hinput, h1.1, h2.1⟩
        | d1 :: d2 :: d3 :: rest, _ => exact absurd hok (by simp)
  · intro args msg h
    unfold window_geometry_or_default
    rw [h]
    rfl

/-- C10 witness: `--geometry=12x34` parses to (12, 34), and a process
argument list with no geometry argument yields the default (100, 50). -/
theorem window_geometry_spec_witness :
    parse_geometry "12x34".toList = Except.ok (12, 34) ∧
    window_geometry ["neovide".toList] = Except.ok (100, 50) := by
  constructor
  · exact window_geometry_spec.2.2.1 "12x34".toList "12".toList "34".toList 12 34
      (by decide) (by decide) (by decide) (by decide) (by decide)
  · exact window_geometry_spec.1 ["neovide".toList] (by decide)

end Neovide
